import Mathlib

/-!
Shallow embedding of the smart-meter-receiver driver (Rust) in Lean 4,
used to settle the frozen claims about its specification.

Conventions of the embedding:
* Rust strings (`&str`) are embedded as `List Char` (`Str` below); machine
  integers (`u8`, `u16`, `u64`) as `Nat`, with `% 2^w` written out exactly
  where the source performs an `as` truncation.
* Fallible Rust code returning `Result` becomes `Except`; a Rust panic
  (out-of-bounds indexing) is modelled by an `Option` layer where `none`
  means the call panics.
* Error payload strings carried by the Rust error enums are irrelevant to
  every claim, so error constructors are payload-free.
* The `mem::transmute`-based (de)serialization of `EchonetPacket` inherits
  host endianness in the source; the embedding therefore takes an explicit
  `le : Bool` flag (true = little-endian host) everywhere the transmuted
  `u16` field matters.
-/

namespace SmartMeterReceiver

/-- Rust `&str` contents, embedded as a list of characters. -/
abbrev Str := List Char

/-- Rust `char::is_whitespace` restricted to the ASCII whitespace that can
appear on a serial line (the claims never involve non-ASCII whitespace). -/
def isWs (c : Char) : Bool := c = ' ' || c = '\t' || c = '\r' || c = '\n'

/-- Left part of Rust `str::trim`. -/
def ltrim (l : Str) : Str := l.dropWhile isWs

/-- Right part of Rust `str::trim`. -/
def rtrim (l : Str) : Str := (l.reverse.dropWhile isWs).reverse

/-- Rust `str::trim`. -/
def trim (l : Str) : Str := ltrim (rtrim l)

/-- Rust `str::split` with a character-predicate pattern: yields the
(possibly empty) pieces between separator characters. -/
def splitOn (p : Char → Bool) : Str → List Str
  | [] => [[]]
  | c :: cs =>
    if p c then [] :: splitOn p cs
    else
      match splitOn p cs with
      | [] => [[c]]
      | t :: ts => (c :: t) :: ts

/-- Rust `str::strip_prefix`: the remainder after the given leading
characters, if they are present. -/
def stripPre : Str → Str → Option Str
  | [], l => some l
  | _ :: _, [] => none
  | p :: ps, c :: cs => if p = c then stripPre ps cs else none

/-- Value of one hexadecimal digit character, as in Rust digit parsing. -/
def hexDigit (c : Char) : Option Nat :=
  if '0' ≤ c ∧ c ≤ '9' then some (c.toNat - 48)
  else if 'a' ≤ c ∧ c ≤ 'f' then some (c.toNat - 87)
  else if 'A' ≤ c ∧ c ≤ 'F' then some (c.toNat - 55)
  else none

/-- Accumulating loop of `uN::from_str_radix(s, 16)`: every intermediate
value must stay below `bound` (checked arithmetic on the target width). -/
def fromStrRadix16Go (bound : Nat) : Str → Nat → Option Nat
  | [], acc => some acc
  | c :: cs, acc =>
    match hexDigit c with
    | none => none
    | some d => if acc * 16 + d < bound then fromStrRadix16Go bound cs (acc * 16 + d) else none

/-- Rust `uN::from_str_radix(s, 16)` with `bound = 2^N`: optional leading
sign, at least one digit, checked accumulation. -/
def fromStrRadix16 (bound : Nat) (s : Str) : Option Nat :=
  let s' := match s with
    | '+' :: r => r
    | r => r
  if s' = [] then none else fromStrRadix16Go bound s' 0

/-- `u8::from_str_radix(s, 16)`. -/
def hexU8 (s : Str) : Option Nat := fromStrRadix16 256 s

/-- `u16::from_str_radix(s, 16)`. -/
def hexU16 (s : Str) : Option Nat := fromStrRadix16 65536 s

/-- `hex::decode`: an even-length string of hex digits to bytes. -/
def hexDecode : Str → Option (List Nat)
  | [] => some []
  | [_] => none
  | c1 :: c2 :: rest =>
    match hexDigit c1, hexDigit c2 with
    | some d1, some d2 =>
      match hexDecode rest with
      | some bs => some ((d1 * 16 + d2) :: bs)
      | none => none
    | _, _ => none

/-- Decidable equality of `Except`, for evaluating parse results on
concrete inputs. -/
instance {ε α : Type} [DecidableEq ε] [DecidableEq α] : DecidableEq (Except ε α) := fun a b =>
  match a, b with
  | .ok x, .ok y =>
    if h : x = y then .isTrue (by rw [h]) else .isFalse (fun he => h (by injection he))
  | .error x, .error y =>
    if h : x = y then .isTrue (by rw [h]) else .isFalse (fun he => h (by injection he))
  | .ok _, .error _ => .isFalse (fun he => by injection he)
  | .error _, .ok _ => .isFalse (fun he => by injection he)

/-! ## ECHONET codec (src/echonet) -/

/-- Error kinds of src/echonet/errors.rs (payload strings dropped; they are
inspected by no claim). -/
inductive EError where
  | parseError
  | invalidValueError
  | invalidEchonetObjectIdError
  | invalidEchonetServiceError (b : Nat)
  | invalidEchonetProperty (b : Nat)
deriving DecidableEq

/-- src/echonet/enums.rs `EchonetObject`. -/
inductive EchonetObject where
  | smartMeter
  | hemsController
deriving DecidableEq, Fintype

/-- The `repr(u64)` discriminant of `EchonetObject`. -/
def EchonetObject.toU64 : EchonetObject → Nat
  | .smartMeter => 0x028801
  | .hemsController => 0x05FF01

/-- `impl Into<[u8; 3]> for EchonetObject`. -/
def EchonetObject.toBytes3 (o : EchonetObject) : List Nat :=
  [o.toU64 >>> 16 % 256, o.toU64 >>> 8 % 256, o.toU64 % 256]

/-- `u64 → EchonetObject` via `TryFromPrimitive` (enum discriminant table). -/
def EchonetObject.fromU64 (n : Nat) : Option EchonetObject :=
  if n = 0x028801 then some .smartMeter
  else if n = 0x05FF01 then some .hemsController
  else none

/-- `impl TryFrom<[u8; 3]> for EchonetObject`. -/
def EchonetObject.fromBytes3 (b0 b1 b2 : Nat) : Except EError EchonetObject :=
  match EchonetObject.fromU64 ((b0 <<< 16) + (b1 <<< 8) + b2) with
  | some o => .ok o
  | none => .error .invalidEchonetObjectIdError

/-- src/echonet/enums.rs `EchonetService`. -/
inductive EchonetService where
  | readPropertyFailResponse
  | readPropertyRequest
  | readPropertyResponse
  | propertyNotification
  | propertyNotificationResponseRequired
  | propertyNotificationResponse
deriving DecidableEq, Fintype

/-- The `repr(u8)` discriminant of `EchonetService`. -/
def EchonetService.toU8 : EchonetService → Nat
  | .readPropertyFailResponse => 0x52
  | .readPropertyRequest => 0x62
  | .readPropertyResponse => 0x72
  | .propertyNotification => 0x73
  | .propertyNotificationResponseRequired => 0x74
  | .propertyNotificationResponse => 0x7A

/-- `u8 → EchonetService` via `TryFromPrimitive`. -/
def EchonetService.fromU8 (n : Nat) : Option EchonetService :=
  if n = 0x52 then some .readPropertyFailResponse
  else if n = 0x62 then some .readPropertyRequest
  else if n = 0x72 then some .readPropertyResponse
  else if n = 0x73 then some .propertyNotification
  else if n = 0x74 then some .propertyNotificationResponseRequired
  else if n = 0x7A then some .propertyNotificationResponse
  else none

/-- src/echonet/enums.rs `EchonetSmartMeterProperty`. -/
inductive EchonetSmartMeterProperty where
  | coefficient
  | numberOfEffectiveDigitsCumulativeElectricEnergy
  | normalDirectionCumulativeElectricEnergy
  | unitForCumulativeElectricEnergy
  | normalDirectionCumulativeElectricEnergyLog1
  | instantaneousElectricPower
  | instantaneousCurrent
deriving DecidableEq, Fintype

/-- src/echonet/enums.rs `EchonetSuperClassProperty`. -/
inductive EchonetSuperClassProperty where
  | getPropertyMap
deriving DecidableEq, Fintype

/-- A Rust property enum `P: EchonetProperty` is characterized by its
`Into<u8>` and `TryFromPrimitive` conversions; this bundles them for the
generic packet codec. -/
structure PropCodec (P : Type) where
  toU8 : P → Nat
  fromU8 : Nat → Option P

/-- Codec of `EchonetSmartMeterProperty` (its `repr(u8)` table). -/
def smCodec : PropCodec EchonetSmartMeterProperty where
  toU8
    | .coefficient => 0xD3
    | .numberOfEffectiveDigitsCumulativeElectricEnergy => 0xD7
    | .normalDirectionCumulativeElectricEnergy => 0xE0
    | .unitForCumulativeElectricEnergy => 0xE1
    | .normalDirectionCumulativeElectricEnergyLog1 => 0xE2
    | .instantaneousElectricPower => 0xE7
    | .instantaneousCurrent => 0xE8
  fromU8 n :=
    if n = 0xD3 then some .coefficient
    else if n = 0xD7 then some .numberOfEffectiveDigitsCumulativeElectricEnergy
    else if n = 0xE0 then some .normalDirectionCumulativeElectricEnergy
    else if n = 0xE1 then some .unitForCumulativeElectricEnergy
    else if n = 0xE2 then some .normalDirectionCumulativeElectricEnergyLog1
    else if n = 0xE7 then some .instantaneousElectricPower
    else if n = 0xE8 then some .instantaneousCurrent
    else none

/-- Codec of `EchonetSuperClassProperty`. -/
def scCodec : PropCodec EchonetSuperClassProperty where
  toU8
    | .getPropertyMap => 0x9F
  fromU8 n := if n = 0x9F then some .getPropertyMap else none

/-- src/echonet/packet.rs `Property<P>` (field `data` is the EDT). -/
structure EProperty (P : Type) where
  epc : P
  data : List Nat
deriving DecidableEq

/-- src/echonet/packet.rs `Edata<P>`. -/
structure Edata (P : Type) where
  source_object : EchonetObject
  destination_object : EchonetObject
  echonet_service : EchonetService
  properties : List (EProperty P)
deriving DecidableEq

/-- src/echonet/packet.rs `EchonetPacket<P>`; `ehd1`/`ehd2` are private in
the source and always `0x10`/`0x81` on constructed packets, which the
theorems carry as a validity hypothesis. -/
structure EchonetPacket (P : Type) where
  ehd1 : Nat
  ehd2 : Nat
  transaction_id : Nat
  data : Edata P
deriving DecidableEq

/-- `Property::parse`: consumed length and the property.  Mirrors the
source: needs 2 bytes, EPC through `P::try_from_primitive`, then `pdc`
bytes of EDT. -/
def EProperty.parse {P : Type} (c : PropCodec P) (bin : List Nat) :
    Except EError (Nat × EProperty P) :=
  if bin.length < 2 then .error .parseError
  else
    match c.fromU8 (bin.getD 0 0) with
    | none => .error (.invalidEchonetProperty (bin.getD 0 0))
    | some epc =>
      let pdc := bin.getD 1 0
      if bin.length < 2 + pdc then .error .parseError
      else .ok (2 + pdc, ⟨epc, (bin.drop 2).take pdc⟩)

/-- `Property::dump`: `epc | pdc | edt` with `pdc = data.len() as u8`. -/
def EProperty.dump {P : Type} (c : PropCodec P) (pr : EProperty P) : List Nat :=
  c.toU8 pr.epc :: pr.data.length % 256 :: pr.data

/-- The `for _ in 0..header.opc` loop of `Edata::parse`: the source checks
`pos >= bin.len()` (here: remainder empty) before each property. -/
def parseProps {P : Type} (c : PropCodec P) : Nat → List Nat → Except EError (List (EProperty P))
  | 0, _ => .ok []
  | n + 1, bin =>
    if bin.isEmpty then .error .parseError
    else
      match EProperty.parse c bin with
      | .error e => .error e
      | .ok (num, pr) =>
        match parseProps c n (bin.drop num) with
        | .error e => .error e
        | .ok ps => .ok (pr :: ps)

/-- `Edata::parse`: 8-byte header (`seoj|deoj|esv|opc`, a `repr(packed)`
byte-array transmute), then `opc` properties; trailing bytes ignored. -/
def Edata.parse {P : Type} (c : PropCodec P) (bin : List Nat) : Except EError (Edata P) :=
  if bin.length < 8 then .error .parseError
  else
    match EchonetObject.fromBytes3 (bin.getD 0 0) (bin.getD 1 0) (bin.getD 2 0) with
    | .error e => .error e
    | .ok seoj =>
      match EchonetObject.fromBytes3 (bin.getD 3 0) (bin.getD 4 0) (bin.getD 5 0) with
      | .error e => .error e
      | .ok deoj =>
        match EchonetService.fromU8 (bin.getD 6 0) with
        | none => .error (.invalidEchonetServiceError (bin.getD 6 0))
        | some esv =>
          match parseProps c (bin.getD 7 0) (bin.drop 8) with
          | .error e => .error e
          | .ok ps => .ok ⟨seoj, deoj, esv, ps⟩

/-- `Edata::dump`: header with `opc = properties.len() as u8`, then the
dumped properties. -/
def Edata.dump {P : Type} (c : PropCodec P) (e : Edata P) : List Nat :=
  e.source_object.toBytes3 ++ e.destination_object.toBytes3 ++
    [e.echonet_service.toU8, e.properties.length % 256] ++
    (e.properties.map (EProperty.dump c)).flatten

/-- Memory bytes of the packed `u16` TID field: host order (`le = true`
for a little-endian host).  The source transmutes the struct, so the wire
bytes follow the host layout. -/
def tidBytes (le : Bool) (tid : Nat) : List Nat :=
  if le then [tid % 256, tid / 256 % 256] else [tid / 256 % 256, tid % 256]

/-- Reading the packed `u16` TID field back from two wire bytes on the
same host. -/
def tidOfBytes (le : Bool) (b2 b3 : Nat) : Nat :=
  if le then b2 + 256 * b3 else 256 * b2 + b3

/-- `EchonetPacket::parse`: 4-byte header via transmute (EHD checks, TID
in host order), then `Edata::parse` on the rest. -/
def EchonetPacket.parse {P : Type} (le : Bool) (c : PropCodec P) (bin : List Nat) :
    Except EError (EchonetPacket P) :=
  if bin.length < 4 then .error .parseError
  else if bin.getD 0 0 ≠ 0x10 then .error .invalidValueError
  else if bin.getD 1 0 ≠ 0x81 then .error .invalidValueError
  else
    match Edata.parse c (bin.drop 4) with
    | .error e => .error e
    | .ok ed => .ok ⟨bin.getD 0 0, bin.getD 1 0, tidOfBytes le (bin.getD 2 0) (bin.getD 3 0), ed⟩

/-- `EchonetPacket::dump`: transmuted 4-byte header then the Edata. -/
def EchonetPacket.dump {P : Type} (le : Bool) (c : PropCodec P) (p : EchonetPacket P) : List Nat :=
  p.ehd1 :: p.ehd2 :: tidBytes le p.transaction_id ++ Edata.dump c p.data

/-- Packets the Rust program can construct: private header bytes fixed by
`new`/`parse`, a `u16` TID, and the `u8` ranges `as u8` relies on. -/
def EchonetPacket.Valid {P : Type} (p : EchonetPacket P) : Prop :=
  p.ehd1 = 0x10 ∧ p.ehd2 = 0x81 ∧ p.transaction_id < 65536 ∧
    p.data.properties.length ≤ 255 ∧ ∀ pr ∈ p.data.properties, pr.data.length ≤ 255

instance {P : Type} (p : EchonetPacket P) : Decidable p.Valid := by
  unfold EchonetPacket.Valid; infer_instance

/-! ## Property map (src/echonet/property_map.rs) -/

/-- `PropertyMap`: a `HashSet<u8>` of supported EPC codes, embedded as a
`Finset ℕ`. -/
structure PropertyMap where
  properties : Finset Nat
deriving DecidableEq

/-- The bitmap loop of the long form of `PropertyMap::parse`: for byte `i`
in `0..16` (skipped when zero, which inserts nothing), bit `j` in `0..8`
set inserts `(i as u8) + ((8 + j) << 4)`. -/
def longFormFold (map : List Nat) : Finset Nat :=
  (List.range 16).foldl
    (fun s i =>
      if map.getD i 0 = 0 then s
      else
        (List.range 8).foldl
          (fun s' j =>
            if map.getD i 0 &&& (1 <<< j) ≠ 0 then insert (i + ((8 + j) <<< 4)) s' else s')
          s)
    ∅

/-- `PropertyMap::parse`. -/
def PropertyMap.parse (bin : List Nat) : Except EError PropertyMap :=
  match bin with
  | [] => .error .parseError
  | b :: rest =>
    if b < 16 then .ok ⟨rest.toFinset⟩
    else if (b :: rest).length ≠ 17 then .error .parseError
    else
      let props := longFormFold rest
      if props.card ≠ b then .error .parseError
      else .ok ⟨props⟩

/-- `PropertyMap::has_property`. -/
def PropertyMap.hasProperty (m : PropertyMap) (epc : Nat) : Bool :=
  epc ∈ m.properties

/-- The long-form decoding rule as the spec words it: byte `i` (0..=15)
bit `j` (0..=7), when set, denotes the EPC `((8 + j) << 4) | i`. -/
def longFormSpec (map : List Nat) : Finset Nat :=
  ((List.range 16).flatMap fun i =>
    (List.range 8).filterMap fun j =>
      if (map.getD i 0).testBit j then some (((8 + j) <<< 4) ||| i) else none).toFinset

/-! ## Line parser (src/parser) -/

/-- src/parser/messages.rs `ParseResult<T>`. -/
inductive PResult (α : Type) where
  | ok (a : α)
  | err (e : Str)
  | empty
  | more
deriving DecidableEq

/-- src/parser/event.rs `EventKind`. -/
inductive EventKind where
  | finishedUdpSend
  | finishedActiveScan
  | errorOnPanaConnection
  | establishedPanaConnection
deriving DecidableEq, Fintype

/-- `u8 → EventKind` via `TryFromPrimitive` (0x21/0x22/0x24/0x25). -/
def EventKind.fromU8 (n : Nat) : Option EventKind :=
  if n = 0x21 then some .finishedUdpSend
  else if n = 0x22 then some .finishedActiveScan
  else if n = 0x24 then some .errorOnPanaConnection
  else if n = 0x25 then some .establishedPanaConnection
  else none

/-- `std::net::Ipv6Addr`, abstracted to its 128-bit value; the std textual
parser is an external collaborator and enters the embedding as a function
parameter `ipv6 : Str → Option Ipv6`. -/
abbrev Ipv6 := Nat

/-- src/parser/event.rs `UdpPacket`. -/
structure UdpPacket where
  sender : Ipv6
  dest : Ipv6
  source_port : Nat
  dest_port : Nat
  data : List Nat
deriving DecidableEq

/-- src/parser/event.rs `PanDescBody`. -/
structure PanDescBody where
  channel : Nat
  pan_id : Nat
  addr : List Nat
deriving DecidableEq

/-- src/parser/event.rs `WiSunEvent`.  The `version` constructor does not
occur in this snapshot's event.rs; it is the variant `client.rs` matches as
`WiSunEvent::Version` and the spec lists in its data model, modelled from
the spec for the claims that need it (src parsing never produces it). -/
inductive WiSunEvent where
  | panDesc (b : PanDescBody)
  | rxUdp (p : UdpPacket)
  | event (k : EventKind) (sender : Ipv6)
  | version (v : Str)
deriving DecidableEq

/-- src/parser/messages.rs `SerialMessage`. -/
inductive SerialMessage where
  | ok
  | fail (s : Str)
  | event (e : WiSunEvent)
deriving DecidableEq

/-- The token list `parts`: `data.trim().split(&[' ', '\n']).map(|s| s.trim())`. -/
def tokenize (data : Str) : List Str :=
  (splitOn (fun c => c = ' ' || c = '\n') (trim data)).map trim

def eventTok : Str := ['E', 'V', 'E', 'N', 'T']
def erxudpTok : Str := ['E', 'R', 'X', 'U', 'D', 'P']
def epandescTok : Str := ['E', 'P', 'A', 'N', 'D', 'E', 'S', 'C']
def everSpaceTok : Str := ['E', 'V', 'E', 'R', ' ']
def okTok : Str := ['O', 'K']
def failSpaceTok : Str := ['F', 'A', 'I', 'L', ' ']
def channelKey : Str := ['C', 'h', 'a', 'n', 'n', 'e', 'l']
def panIdKey : Str := ['P', 'a', 'n', ' ', 'I', 'D']
def addrKey : Str := ['A', 'd', 'd', 'r']

/-- `WiSunEvent::parse_event`.  The source indexes `parts[1]` and
`parts[2]` unconditionally; `none` models the out-of-bounds panic. -/
def WiSunEvent.parseEvent (ipv6 : Str → Option Ipv6) (data : Str) (parts : List Str) :
    Option (PResult WiSunEvent) :=
  match parts.get? 1 with
  | none => none
  | some p1 =>
    match hexU8 p1 with
    | none => some (.err data)
    | some n =>
      match parts.get? 2 with
      | none => none
      | some p2 =>
        match EventKind.fromU8 n, ipv6 p2 with
        | some k, some ip => some (.ok (.event k ip))
        | _, _ => some (.err data)

/-- `WiSunEvent::parse_rx_udp`: exactly 9 tokens, addresses, hex ports,
hex length matching half the hex-data length, then `hex::decode`. -/
def WiSunEvent.parseRxUdp (ipv6 : Str → Option Ipv6) (data : Str) (parts : List Str) :
    PResult WiSunEvent :=
  if parts.length ≠ 9 then .err data
  else
    match ipv6 (parts.getD 1 []), ipv6 (parts.getD 2 []) with
    | some snd, some dst =>
      match hexU16 (parts.getD 3 []), hexU16 (parts.getD 4 []) with
      | some sp, some dp =>
        match hexU16 (parts.getD 7 []) with
        | some dataLen =>
          if dataLen * 2 ≠ (parts.getD 8 []).length then .err data
          else
            match hexDecode (parts.getD 8 []) with
            | some body => .ok (.rxUdp ⟨snd, dst, sp, dp, body⟩)
            | none => .err data
        | none => .err data
      | _, _ => .err data
    | _, _ => .err data

/-- The `key:value` collection loop of `parse_pan_desc`: each line is split
on a colon, both parts trimmed, and a line without exactly two parts aborts
with a parse error. -/
def collectKV : List Str → Except Str (List (Str × Str))
  | [] => .ok []
  | l :: ls =>
    let kv := (splitOn (fun c => c = ':') l).map trim
    if kv.length ≠ 2 then .error l
    else
      match collectKV ls with
      | .error e => .error e
      | .ok m => .ok ((kv.getD 0 [], kv.getD 1 []) :: m)

/-- `HashMap` lookup over the collected pairs (a later insert of the same
key overwrites an earlier one, hence the reversed search). -/
def kvLookup (m : List (Str × Str)) (k : Str) : Option Str :=
  (m.reverse.find? (fun e => e.1 = k)).map (·.2)

/-- `WiSunEvent::parse_pan_desc`: 7 newline-separated lines, six
`key:value` lines, `Channel` (hex u8), `Pan ID` (hex u16), `Addr`
(8 hex bytes). -/
def WiSunEvent.parsePanDesc (data : Str) : PResult WiSunEvent :=
  let lines := splitOn (fun c => c = '\n') data
  if lines.length ≠ 7 then .more
  else
    match collectKV lines.tail with
    | .error e => .err e
    | .ok pd =>
      match kvLookup pd channelKey with
      | none => .err data
      | some chStr =>
        match hexU8 chStr with
        | none => .err data
        | some channel =>
          match kvLookup pd panIdKey with
          | none => .err data
          | some pidStr =>
            match hexU16 pidStr with
            | none => .err data
            | some panId =>
              match kvLookup pd addrKey with
              | none => .err data
              | some addrStr =>
                match hexDecode addrStr with
                | none => .err data
                | some addr =>
                  if addr.length = 8 then .ok (.panDesc ⟨channel, panId, addr⟩)
                  else .err data

/-- `WiSunEvent::parse` as it stands in this snapshot's event.rs: empty →
`Empty`; dispatch on the first token; unknown names are errors.  `none`
models a panic inside `parse_event`. -/
def WiSunEvent.parse (ipv6 : Str → Option Ipv6) (data : Str) : Option (PResult WiSunEvent) :=
  if data.length = 0 then some .empty
  else
    let parts := tokenize data
    if parts.length < 1 then some (.err data)
    else if parts.getD 0 [] = eventTok then WiSunEvent.parseEvent ipv6 data parts
    else if parts.getD 0 [] = erxudpTok then some (WiSunEvent.parseRxUdp ipv6 data parts)
    else if parts.getD 0 [] = epandescTok then some (WiSunEvent.parsePanDesc data)
    else some (.err data)

/-- `SerialMessage::parse`: exact `OK`, `FAIL `-prefixed (suffix trimmed),
otherwise defer to `WiSunEvent::parse`. -/
def SerialMessage.parse (ipv6 : Str → Option Ipv6) (data : Str) : Option (PResult SerialMessage) :=
  if data = okTok then some (.ok .ok)
  else
    match stripPre failSpaceTok data with
    | some f => some (.ok (.fail (trim f)))
    | none =>
      match WiSunEvent.parse ipv6 data with
      | none => none
      | some (.ok ev) => some (.ok (.event ev))
      | some (.err _) => some (.err data)
      | some .more => some .more
      | some .empty => some .empty

/-- src/parser/parser.rs `WiSunModuleParser::add_line`: pending multi-line
block state threaded explicitly; returns the classification and the new
pending block. -/
def addLine (ipv6 : Str → Option Ipv6) (pending : Option Str) (line : Str) :
    Option (PResult SerialMessage × Option Str) :=
  if pending = none ∧ line.length = 0 then some (.empty, none)
  else
    let allLine := match pending with
      | some l => l ++ '\n' :: line
      | none => line
    match SerialMessage.parse ipv6 allLine with
    | none => none
    | some (.ok m) => some (.ok m, none)
    | some (.err s) => some (.err s, none)
    | some .more => some (.more, some allLine)
    | some .empty => some (.empty, none)

/-- Modelled from the spec: the missing EVER handling of the message
parser.  This snapshot's event.rs has no `Version` variant and no `EVER`
branch, although `client.rs::get_version` (its caller, with its tests)
matches `WiSunEvent::Version`; spec 4.2 places the rule "Starts with
`EVER ` → `Ok(Event(Version(suffix)))`" after the `EPANDESC` case.
Everything before that rule is the translation of the source. -/
def WiSunEvent.parseV (ipv6 : Str → Option Ipv6) (data : Str) : Option (PResult WiSunEvent) :=
  if data.length = 0 then some .empty
  else
    let parts := tokenize data
    if parts.length < 1 then some (.err data)
    else if parts.getD 0 [] = eventTok then WiSunEvent.parseEvent ipv6 data parts
    else if parts.getD 0 [] = erxudpTok then some (WiSunEvent.parseRxUdp ipv6 data parts)
    else if parts.getD 0 [] = epandescTok then some (WiSunEvent.parsePanDesc data)
    else
      match stripPre everSpaceTok data with
      | some suffix => some (.ok (.version suffix))
      | none => some (.err data)

/-- Modelled from the spec: `SerialMessage::parse` over the EVER-capable
event parser (everything except the deferred parser is the source). -/
def SerialMessage.parseV (ipv6 : Str → Option Ipv6) (data : Str) : Option (PResult SerialMessage) :=
  if data = okTok then some (.ok .ok)
  else
    match stripPre failSpaceTok data with
    | some f => some (.ok (.fail (trim f)))
    | none =>
      match WiSunEvent.parseV ipv6 data with
      | none => none
      | some (.ok ev) => some (.ok (.event ev))
      | some (.err _) => some (.err data)
      | some .more => some .more
      | some .empty => some .empty

/-- Modelled from the spec: `add_line` over the EVER-capable message
parser (the state handling is the translation of parser.rs). -/
def addLineV (ipv6 : Str → Option Ipv6) (pending : Option Str) (line : Str) :
    Option (PResult SerialMessage × Option Str) :=
  if pending = none ∧ line.length = 0 then some (.empty, none)
  else
    let allLine := match pending with
      | some l => l ++ '\n' :: line
      | none => line
    match SerialMessage.parseV ipv6 allLine with
    | none => none
    | some (.ok m) => some (.ok m, none)
    | some (.err s) => some (.err s, none)
    | some .more => some (.more, some allLine)
    | some .empty => some (.empty, none)

/-! ## Client orchestrator (src/wisun_module/client.rs)

The client is modelled at the message level: one `ReadOutcome` is what one
`serial_connection.read_line()` call produces, already pushed through
`serial_parser.add_line` when the read succeeds (`get_message` inspects
nothing but that classification).  Wall-clock timeouts (`SystemTime`) are
real time and outside the embedding; the claims below are all settled for
`wait_fn` calls whose deciding behaviour happens before any timeout could
fire, and a finite stream running dry is the explicit `exhausted`/
`streamEnded` outcome instead. -/

/-- One `read_line()` result as `get_message` sees it. -/
inductive ReadOutcome where
  | msg (m : SerialMessage)
  | emptyLine
  | parseSkip
  | ioTimeout
  | ioOther
  | serialOther
deriving DecidableEq

/-- Result of `get_message`: `Ok(true)` with the pushed message, `Ok(false)`,
or the propagated read error (kind preserved). -/
inductive GMRes where
  | gotMsg (m : SerialMessage)
  | noMsg
  | errIoTimeout
  | errIoOther
  | errSerialOther
  | noInput
deriving DecidableEq

/-- `WiSunClient::get_message`: loops over lines, pushes the first complete
message (returning true), returns false on an empty line, keeps looping on
`More`/`Err` classifications, and returns any read error to its caller. -/
def getMessage : List ReadOutcome → GMRes × List ReadOutcome
  | [] => (.noInput, [])
  | o :: rest =>
    match o with
    | .msg m => (.gotMsg m, rest)
    | .emptyLine => (.noMsg, rest)
    | .parseSkip => getMessage rest
    | .ioTimeout => (.errIoTimeout, rest)
    | .ioOther => (.errIoOther, rest)
    | .serialOther => (.errSerialOther, rest)

/-- `WiSunClient::search_on_buffer`: remove and return the first (FIFO)
buffered message matching the predicate. -/
def searchOnBuffer (pred : SerialMessage → Bool) :
    List SerialMessage → Option (SerialMessage × List SerialMessage)
  | [] => none
  | m :: rest =>
    if pred m then some (m, rest)
    else (searchOnBuffer pred rest).map (fun x => (x.1, m :: x.2))

/-- Outcome of `wait_fn` (with no timeout budget; see the section note). -/
inductive WaitRes where
  | found (m : SerialMessage)
  | cmdError (s : Str)
  | exhausted
deriving DecidableEq

/-- The read loop of `WiSunClient::wait_fn`, with `get_message` fused in
(`parseSkip` is `get_message`'s own looping).  Each successfully pushed
message is checked as `message_buffer.last()`: a `pred` match is popped and
returned, an `err_if` hit returns `CommandError` (the message stays
buffered), anything else stays buffered and the loop reads on.  Read
errors of every kind fall through to the `sleep`-and-retry path — the
source's `IoError` arm returns nothing for non-timeout kinds. -/
def waitLoop (pred : SerialMessage → Bool) (errIf : SerialMessage → Option Str) :
    List ReadOutcome → List SerialMessage → WaitRes × List SerialMessage × List ReadOutcome
  | [], buf => (.exhausted, buf, [])
  | o :: rest, buf =>
    match o with
    | .msg m =>
      if pred m then (.found m, buf, rest)
      else
        match errIf m with
        | some e => (.cmdError e, buf ++ [m], rest)
        | none => waitLoop pred errIf rest (buf ++ [m])
    | .emptyLine => waitLoop pred errIf rest buf
    | .parseSkip => waitLoop pred errIf rest buf
    | .ioTimeout => waitLoop pred errIf rest buf
    | .ioOther => waitLoop pred errIf rest buf
    | .serialOther => waitLoop pred errIf rest buf

/-- `WiSunClient::wait_fn`: first the FIFO buffer search, then the read
loop. -/
def waitFn (pred : SerialMessage → Bool) (errIf : SerialMessage → Option Str)
    (buf : List SerialMessage) (stream : List ReadOutcome) :
    WaitRes × List SerialMessage × List ReadOutcome :=
  match searchOnBuffer pred buf with
  | some (m, buf') => (.found m, buf', stream)
  | none => waitLoop pred errIf stream buf

/-- `err_when_fail`. -/
def errWhenFail : SerialMessage → Option Str
  | .fail s => some s
  | _ => none

/-- The predicate of `wait_ok`. -/
def isOkMsg : SerialMessage → Bool
  | .ok => true
  | _ => false

/-- The scan-finished predicate of `scan()`. -/
def isScanFinishedMsg : SerialMessage → Bool
  | .event (.event k _) => k == .finishedActiveScan
  | _ => false

/-- The `PanDesc` predicate of `scan()`'s buffer search. -/
def isPanDescMsg : SerialMessage → Bool
  | .event (.panDesc _) => true
  | _ => false

/-- Result of `scan()`. -/
inductive ScanRes where
  | ok (b : PanDescBody)
  | cmdError (s : Str)
  | scanError
  | exhausted
deriving DecidableEq

/-- The `for i in 4..10` loop of `WiSunClient::scan`.  Per duration:
`flush_messages` (buffer cleared), `SKSCAN 2 FFFFFFFF <d>` written (the
returned list records the durations sent, in order), `wait_ok`, wait for
`FinishedActiveScan`, then search the buffer for a `PanDesc`; a found
`PanDesc` returns, otherwise the next duration runs.  The empty duration
list yields `ScanError("pan not found")`. -/
def scanGo (durations : List Nat) (buf : List SerialMessage) (stream : List ReadOutcome) :
    ScanRes × List SerialMessage × List ReadOutcome × List Nat :=
  match durations with
  | [] => (.scanError, buf, stream, [])
  | d :: ds =>
    match waitFn isOkMsg errWhenFail [] stream with
    | (.found _, buf1, s1) =>
      match waitFn isScanFinishedMsg errWhenFail buf1 s1 with
      | (.found _, buf2, s2) =>
        match searchOnBuffer isPanDescMsg buf2 with
        | some (SerialMessage.event (WiSunEvent.panDesc body), buf3) => (.ok body, buf3, s2, [d])
        | some (_, buf3) =>
          match scanGo ds buf3 s2 with
          | (r, b, s, sent) => (r, b, s, d :: sent)
        | none =>
          match scanGo ds buf2 s2 with
          | (r, b, s, sent) => (r, b, s, d :: sent)
      | (.cmdError e, buf2, s2) => (.cmdError e, buf2, s2, [d])
      | (.exhausted, buf2, s2) => (.exhausted, buf2, s2, [d])
    | (.cmdError e, buf1, s1) => (.cmdError e, buf1, s1, [d])
    | (.exhausted, buf1, s1) => (.exhausted, buf1, s1, [d])

/-- `WiSunClient::scan`. -/
def scan (buf : List SerialMessage) (stream : List ReadOutcome) :
    ScanRes × List SerialMessage × List ReadOutcome × List Nat :=
  scanGo [4, 5, 6, 7, 8, 9] buf stream

/-- Client errors (src/wisun_module/errors.rs; payload strings dropped,
`streamEnded` is the finite-stream artefact of the embedding). -/
inductive WError where
  | serialError
  | commandError
  | timeoutError
  | scanErrorK
  | echonetError (e : EError)
  | streamEnded
deriving DecidableEq

/-- Client state fields the modelled operations read or write. -/
structure ClientState where
  message_buffer : List SerialMessage
  address : Option Ipv6
  property_map : Option PropertyMap
deriving DecidableEq

/-- `WiSunClient::check_property_exists` at the `u8` level its comparisons
use: a single `GetPropertyMap` (0x9F) request bypasses the gate; otherwise
a missing property map is a `CommandError`, and every requested EPC must be
in the map. -/
def checkPropertyExists (props : List Nat) (pm : Option PropertyMap) : Except WError Unit :=
  if props.length = 1 ∧ props.getD 0 0 = 0x9F then .ok ()
  else
    match pm with
    | none => .error .commandError
    | some m =>
      if props.all (fun p => m.hasProperty p) then .ok () else .error .commandError

/-- `EchonetPacket::get_property`. -/
def EchonetPacket.getProperty {P : Type} [DecidableEq P] (p : EchonetPacket P) (prop : P) :
    Option (EProperty P) :=
  p.data.properties.find? (fun ep => ep.epc == prop)

/-- `Property::get_i32`: big-endian two's-complement of an exactly-4-byte
EDT. -/
def EProperty.getI32 {P : Type} (pr : EProperty P) : Option Int :=
  if pr.data.length = 4 then
    let n := pr.data.getD 0 0 * 16777216 + pr.data.getD 1 0 * 65536 +
      pr.data.getD 2 0 * 256 + pr.data.getD 3 0
    some (if n < 2147483648 then (n : Int) else (n : Int) - 4294967296)
  else none

/-- `Property::get_u32`. -/
def EProperty.getU32 {P : Type} (pr : EProperty P) : Option Nat :=
  if pr.data.length = 4 then
    some (pr.data.getD 0 0 * 16777216 + pr.data.getD 1 0 * 65536 +
      pr.data.getD 2 0 * 256 + pr.data.getD 3 0)
  else none

/-- The predicate `wait_echonet_packet` gets from `get_properties`: an
inbound UDP payload parsing to a packet with the fresh TID, source
`SmartMeter` and destination `HemsController`. -/
def isMatchingRxUdp {P : Type} (c : PropCodec P) (le : Bool) (tid : Nat) :
    SerialMessage → Bool
  | .event (.rxUdp u) =>
    match EchonetPacket.parse le c u.data with
    | .ok p =>
      decide (p.transaction_id = tid % 65536 ∧
        p.data.destination_object = .hemsController ∧ p.data.source_object = .smartMeter)
    | .error _ => false
  | _ => false

/-- `WiSunClient::get_properties`.  `tid` stands for the `rand::random()`
draw (reduced to `u16`).  The fourth component records every UDP payload
handed to `send_udp`, so "no request was sent" is `sent = []`.  The gate
check runs first; `send_udp` then requires `address`, flushes the buffer,
writes `SKSENDTO … payload` and awaits `OK`; finally the 20 s
`wait_echonet_packet` (wall clock; see section note) matches the response
and re-parses it. -/
def getProperties {P : Type} (c : PropCodec P) (le : Bool) (tid : Nat) (props : List P)
    (st : ClientState) (stream : List ReadOutcome) :
    Except WError (EchonetPacket P) × ClientState × List ReadOutcome × List (List Nat) :=
  match checkPropertyExists (props.map c.toU8) st.property_map with
  | .error e => (.error e, st, stream, [])
  | .ok _ =>
    let pkt : EchonetPacket P :=
      ⟨0x10, 0x81, tid % 65536,
        ⟨.hemsController, .smartMeter, .readPropertyRequest,
          props.map (fun p => ⟨p, []⟩)⟩⟩
    match st.address with
    | none => (.error .commandError, st, stream, [])
    | some _ =>
      let payload := EchonetPacket.dump le c pkt
      match waitFn isOkMsg errWhenFail [] stream with
      | (.found _, buf1, s1) =>
        match waitFn (isMatchingRxUdp c le tid) errWhenFail buf1 s1 with
        | (.found (SerialMessage.event (WiSunEvent.rxUdp u)), buf2, s2) =>
          (match EchonetPacket.parse le c u.data with
            | .ok p => (.ok p, ⟨buf2, st.address, st.property_map⟩, s2, [payload])
            | .error e => (.error (.echonetError e), ⟨buf2, st.address, st.property_map⟩, s2, [payload]))
        | (.found _, buf2, s2) => (.error .commandError, ⟨buf2, st.address, st.property_map⟩, s2, [payload])
        | (.cmdError _, buf2, s2) => (.error .commandError, ⟨buf2, st.address, st.property_map⟩, s2, [payload])
        | (.exhausted, buf2, s2) => (.error .streamEnded, ⟨buf2, st.address, st.property_map⟩, s2, [payload])
      | (.cmdError _, buf1, s1) => (.error .commandError, ⟨buf1, st.address, st.property_map⟩, s1, [payload])
      | (.exhausted, buf1, s1) => (.error .streamEnded, ⟨buf1, st.address, st.property_map⟩, s1, [payload])

/-- `WiSunClient::get_power_consumption`: read `E7`, take it from the
response, interpret as `i32`. -/
def getPowerConsumption (le : Bool) (tid : Nat) (st : ClientState) (stream : List ReadOutcome) :
    Except WError Int × ClientState × List ReadOutcome × List (List Nat) :=
  match getProperties smCodec le tid [EchonetSmartMeterProperty.instantaneousElectricPower] st stream with
  | (.ok pkt, st', s', sent) =>
    (match pkt.getProperty .instantaneousElectricPower with
      | some pr =>
        (match pr.getI32 with
          | some v => (.ok v, st', s', sent)
          | none => (.error .commandError, st', s', sent))
      | none => (.error .commandError, st', s', sent))
  | (.error e, st', s', sent) => (.error e, st', s', sent)

/-- The unit table of `get_cumulative_electric_energy`, kept at the `u8`
code level (the `f64` factors are floating point and outside the
embedding): `some code` for the nine accepted codes. -/
def cumulativeUnitOk (b : Nat) : Bool :=
  b = 0x00 ∨ b = 0x01 ∨ b = 0x02 ∨ b = 0x03 ∨ b = 0x04 ∨
    b = 0x0A ∨ b = 0x0B ∨ b = 0x0C ∨ b = 0x0D

/-- `WiSunClient::get_cumulative_electric_energy`, up to the final `f64`
multiplication: the success value is the `(base, unit code, coefficient)`
triple the source multiplies. -/
def getCumulativeElectricEnergy (le : Bool) (tid : Nat) (st : ClientState)
    (stream : List ReadOutcome) :
    Except WError (Nat × Nat × Nat) × ClientState × List ReadOutcome × List (List Nat) :=
  match getProperties smCodec le tid
      [EchonetSmartMeterProperty.normalDirectionCumulativeElectricEnergy,
        EchonetSmartMeterProperty.unitForCumulativeElectricEnergy,
        EchonetSmartMeterProperty.coefficient] st stream with
  | (.ok pkt, st', s', sent) =>
    (match (pkt.getProperty .normalDirectionCumulativeElectricEnergy).map EProperty.getU32 with
      | some (some base) =>
        (match (pkt.getProperty .unitForCumulativeElectricEnergy).map (fun pr => pr.data.getD 0 0) with
          | some u =>
            if cumulativeUnitOk u then
              match (pkt.getProperty .coefficient).map EProperty.getU32 with
              | some (some coeff) => (.ok (base, u, coeff), st', s', sent)
              | _ => (.error .commandError, st', s', sent)
            else (.error .commandError, st', s', sent)
          | none => (.error .commandError, st', s', sent))
      | _ => (.error .commandError, st', s', sent))
  | (.error e, st', s', sent) => (.error e, st', s', sent)

/-! ## Concrete instances used by witnesses and counterexamples -/

/-- The packet of packet.rs's own `parse_test`/`dump_test` (two `E7`
properties), with the TID value `1`. -/
def examplePacket : EchonetPacket EchonetSmartMeterProperty :=
  ⟨0x10, 0x81, 1,
    ⟨.smartMeter, .hemsController, .readPropertyResponse,
      [⟨.instantaneousElectricPower, [0x00, 0x00, 0x02, 0x0E]⟩,
        ⟨.instantaneousElectricPower, [0x00, 0x00, 0x02, 0x0F]⟩]⟩⟩

/-- A constructible packet whose one property carries a 256-byte EDT, so
`dump` writes `pdc = 256 % 256 = 0`. -/
def oversizedPacket : EchonetPacket EchonetSmartMeterProperty :=
  ⟨0x10, 0x81, 0,
    ⟨.hemsController, .smartMeter, .readPropertyRequest,
      [⟨.instantaneousElectricPower, List.replicate 256 0⟩]⟩⟩

/-- The long-form property-map descriptor of the claim (and of
property_map.rs's `parse_long` test). -/
def pmapLongBytes : List Nat :=
  [0x16, 0x0B, 0x01, 0x01, 0x09, 0x00, 0x00, 0x00, 0x01, 0x01, 0x01,
    0x03, 0x03, 0x03, 0x03, 0x03, 0x03]

/-- The 22 EPCs that descriptor decodes to. -/
def pmapLongEpcs : List Nat :=
  [0x80, 0x81, 0x82, 0x83, 0x87, 0x88, 0x89, 0x8A, 0x8B, 0x8C, 0x8D,
    0x8E, 0x8F, 0x90, 0x9A, 0x9B, 0x9C, 0x9D, 0x9E, 0x9F, 0xB0, 0xB3]

/-- The PanDesc of client.rs's scan test. -/
def panBodyEx : PanDescBody :=
  ⟨0x2F, 0x3077, [0x12, 0x34, 0x56, 0x78, 0x90, 0xAB, 0xCD, 0xEF]⟩

/-- A `FinishedActiveScan` event message. -/
def ev22Msg : SerialMessage := .event (.event .finishedActiveScan 0)

/-- A buffered `EPANDESC` block, already parsed. -/
def panMsg : SerialMessage := .event (.panDesc panBodyEx)

/-- One scan duration's worth of traffic with no `EPANDESC`. -/
def scanRoundNoPan : List ReadOutcome := [.msg .ok, .msg ev22Msg]

/-- `OK`, then the `EPANDESC` block, then `EVENT 22`: the out-of-order
arrival the claims discuss. -/
def outOfOrderStream : List ReadOutcome := [.msg .ok, .msg panMsg, .msg ev22Msg]

/-- Six scan durations of traffic with no `EPANDESC` anywhere. -/
def exhaustScanStream : List ReadOutcome := (List.replicate 6 scanRoundNoPan).flatten

/-- A client that has joined (`address` set) but has no property map yet. -/
def pmNoneState : ClientState := ⟨[], some 0, none⟩

/-- The line `EVENT 21`. -/
def eventShortLine : Str := ['E', 'V', 'E', 'N', 'T', ' ', '2', '1']

/-- A stand-in for the std `Ipv6Addr` parser; the inputs it is applied to
never reach it. -/
def noIpv6 : Str → Option Ipv6 := fun _ => none

/-! ## Round-trip of the ECHONET codec (claims C1, C2) -/

theorem smCodec_roundtrip : ∀ x, smCodec.fromU8 (smCodec.toU8 x) = some x := by decide

theorem service_roundtrip : ∀ s : EchonetService, EchonetService.fromU8 s.toU8 = some s := by
  decide

theorem obj_bytes_roundtrip :
    ∀ o : EchonetObject, ∃ x y z, o.toBytes3 = [x, y, z] ∧
      EchonetObject.fromBytes3 x y z = .ok o := by
  intro o
  cases o
  · exact ⟨0x02, 0x88, 0x01, by decide, by decide⟩
  · exact ⟨0x05, 0xFF, 0x01, by decide, by decide⟩

theorem eproperty_parse_dump {P : Type} (c : PropCodec P) (pr : EProperty P)
    (hc : c.fromU8 (c.toU8 pr.epc) = some pr.epc) (h : pr.data.length ≤ 255)
    (rest : List Nat) :
    EProperty.parse c (EProperty.dump c pr ++ rest) = .ok (2 + pr.data.length, pr) := by
  have hmod : pr.data.length % 256 = pr.data.length := Nat.mod_eq_of_lt (by omega)
  simp only [EProperty.dump, EProperty.parse, List.cons_append, List.length_cons,
    List.length_append, List.getD_cons_zero, List.getD_cons_succ, List.drop_succ_cons,
    List.drop_zero, hmod, hc]
  rw [if_neg (by omega), if_neg (by omega), List.take_left]

theorem eproperty_dump_drop {P : Type} (c : PropCodec P) (pr : EProperty P) (rest : List Nat) :
    (EProperty.dump c pr ++ rest).drop (2 + pr.data.length) = rest := by
  simp only [EProperty.dump, List.cons_append]
  rw [show 2 + pr.data.length = pr.data.length + 1 + 1 from by omega]
  simp only [List.drop_succ_cons]
  exact List.drop_left pr.data rest

theorem parseProps_dump {P : Type} (c : PropCodec P) (hc : ∀ x, c.fromU8 (c.toU8 x) = some x) :
    ∀ props : List (EProperty P), (∀ pr ∈ props, pr.data.length ≤ 255) →
      parseProps c props.length ((props.map (EProperty.dump c)).flatten) = .ok props := by
  intro props
  induction props with
  | nil => intro _; rfl
  | cons p ps ih =>
    intro h
    simp only [List.length_cons, List.map_cons, List.flatten_cons]
    unfold parseProps
    rw [show (EProperty.dump c p ++ (ps.map (EProperty.dump c)).flatten).isEmpty = false from by
      simp [EProperty.dump]]
    simp only [Bool.false_eq_true, if_false]
    rw [eproperty_parse_dump c p (hc p.epc) (h p (by simp)) _]
    simp only
    rw [eproperty_dump_drop, ih (fun pr hpr => h pr (by simp [hpr]))]

theorem edata_parse_dump {P : Type} (c : PropCodec P) (hc : ∀ x, c.fromU8 (c.toU8 x) = some x)
    (e : Edata P) (hlen : e.properties.length ≤ 255)
    (hdata : ∀ pr ∈ e.properties, pr.data.length ≤ 255) :
    Edata.parse c (Edata.dump c e) = .ok e := by
  obtain ⟨x, y, z, hso, hso2⟩ := obj_bytes_roundtrip e.source_object
  obtain ⟨x2, y2, z2, hdo, hdo2⟩ := obj_bytes_roundtrip e.destination_object
  have hmod : e.properties.length % 256 = e.properties.length := Nat.mod_eq_of_lt (by omega)
  unfold Edata.dump Edata.parse
  rw [hso, hdo]
  simp only [List.cons_append, List.nil_append, List.length_cons, List.getD_cons_zero,
    List.getD_cons_succ, List.drop_succ_cons, List.drop_zero, hmod, hso2, hdo2,
    service_roundtrip e.echonet_service]
  rw [if_neg (by simp), parseProps_dump c hc e.properties hdata]

theorem packet_parse_dump {P : Type} (c : PropCodec P) (hc : ∀ x, c.fromU8 (c.toU8 x) = some x)
    (le : Bool) (p : EchonetPacket P) (hp : p.Valid) :
    EchonetPacket.parse le c (EchonetPacket.dump le c p) = .ok p := by
  obtain ⟨h1, h2, h3, h4, h5⟩ := hp
  have hed := edata_parse_dump c hc p.data h4 h5
  unfold EchonetPacket.dump EchonetPacket.parse
  cases le
  · simp only [tidBytes, tidOfBytes, if_true, if_false, Bool.false_eq_true, List.cons_append,
      List.length_cons, List.length_append, List.getD_cons_zero, List.getD_cons_succ,
      List.drop_succ_cons, List.drop_zero, h1, h2, hed]
    rw [if_neg (by omega), if_neg (by decide), if_neg (by decide)]
    have ht : 256 * (p.transaction_id / 256 % 256) + p.transaction_id % 256 =
        p.transaction_id := by omega
    rw [ht, ← h1, ← h2]
    simp only [List.nil_append, hed]
  · simp only [tidBytes, tidOfBytes, if_true, if_false, Bool.false_eq_true, List.cons_append,
      List.length_cons, List.length_append, List.getD_cons_zero, List.getD_cons_succ,
      List.drop_succ_cons, List.drop_zero, h1, h2, hed]
    rw [if_neg (by omega), if_neg (by decide), if_neg (by decide)]
    have ht : p.transaction_id % 256 + 256 * (p.transaction_id / 256 % 256) =
        p.transaction_id := by omega
    rw [ht, ← h1, ← h2]
    simp only [List.nil_append, hed]

/-- C1 (amended): for every constructible packet whose property list and
per-property EDT fit the `u8` counts `dump` writes (`opc`, `pdc`), parsing
the dump on the same host yields the packet back, on either endianness. -/
theorem c1_parse_dump_roundtrip {P : Type} (c : PropCodec P)
    (hc : ∀ x, c.fromU8 (c.toU8 x) = some x) (le : Bool) (p : EchonetPacket P)
    (hp : p.Valid) :
    EchonetPacket.parse le c (EchonetPacket.dump le c p) = .ok p :=
  packet_parse_dump c hc le p hp

theorem c1_parse_dump_roundtrip_witness :
    examplePacket.Valid ∧
      EchonetPacket.parse true smCodec (EchonetPacket.dump true smCodec examplePacket) =
        .ok examplePacket :=
  ⟨by decide, c1_parse_dump_roundtrip smCodec smCodec_roundtrip true examplePacket (by decide)⟩

set_option maxRecDepth 4000 in
/-- C1 counterexample: a packet with one 256-byte EDT dumps with
`pdc = 256 % 256 = 0`, so the round trip loses the EDT and the claimed
unconditional `parse(dump(p)) == Ok(p)` fails. -/
theorem c1_oversized_edt_not_roundtrip :
    EchonetPacket.parse true smCodec (EchonetPacket.dump true smCodec oversizedPacket) ≠
      .ok oversizedPacket := by decide

/-- C2 counterexample: on a little-endian host the transmuted header puts
the LOW byte of the TID at byte 2 of the dump, so "byte 2 is the high
byte, regardless of host endianness" fails at TID = 1. -/
theorem c2_tid_not_bigendian :
    ¬ ((EchonetPacket.dump true smCodec examplePacket).getD 2 0 =
        examplePacket.transaction_id / 256 % 256 ∧
      (EchonetPacket.dump true smCodec examplePacket).getD 3 0 =
        examplePacket.transaction_id % 256) := by decide

/-- C2 (amended): `dump` writes the TID at bytes 2 and 3 in host memory
order (low byte first exactly on a little-endian host), and `parse`'s
transmute reads the same order back, so the TID survives a same-host round
trip — but the wire order is host-dependent, not big-endian. -/
theorem c2_tid_host_order {P : Type} (c : PropCodec P) (le : Bool) (p : EchonetPacket P)
    (h : p.transaction_id < 65536) :
    (EchonetPacket.dump le c p).getD 2 0 =
      (if le then p.transaction_id % 256 else p.transaction_id / 256 % 256) ∧
    (EchonetPacket.dump le c p).getD 3 0 =
      (if le then p.transaction_id / 256 % 256 else p.transaction_id % 256) ∧
    tidOfBytes le ((EchonetPacket.dump le c p).getD 2 0)
      ((EchonetPacket.dump le c p).getD 3 0) = p.transaction_id := by
  cases le <;>
    simp only [EchonetPacket.dump, tidBytes, tidOfBytes, if_true, if_false,
      Bool.false_eq_true, List.cons_append, List.getD_cons_zero, List.getD_cons_succ] <;>
    exact ⟨by trivial, by trivial, by omega⟩

theorem c2_tid_host_order_witness :
    examplePacket.transaction_id < 65536 ∧
      (EchonetPacket.dump true smCodec examplePacket).getD 2 0 =
        (if true then examplePacket.transaction_id % 256
          else examplePacket.transaction_id / 256 % 256) ∧
      (EchonetPacket.dump true smCodec examplePacket).getD 3 0 =
        (if true then examplePacket.transaction_id / 256 % 256
          else examplePacket.transaction_id % 256) ∧
      tidOfBytes true ((EchonetPacket.dump true smCodec examplePacket).getD 2 0)
        ((EchonetPacket.dump true smCodec examplePacket).getD 3 0) =
        examplePacket.transaction_id :=
  ⟨by decide, c2_tid_host_order smCodec true examplePacket (by decide)⟩

/-! ## Property map (claims C4, C5) -/

/-- C4 counterexample: the short form performs no length/count check, so a
descriptor announcing `n = 2` but carrying one EPC byte parses
successfully, against the claim that parsing succeeds exactly when exactly
`n` bytes follow the count. -/
theorem c4_count_ignored :
    PropertyMap.parse [2, 0x80] = .ok ⟨[0x80].toFinset⟩ ∧ [2, 0x80].length ≠ 1 + 2 :=
  ⟨rfl, by decide⟩

/-- C4 (amended): for a first byte below 16 the parser succeeds on any
remaining length, never comparing it with the count, and the decoded set
is exactly the set of the bytes after the count byte. -/
theorem c4_short_form_no_count_check (b : Nat) (rest : List Nat) (h : b < 16) :
    PropertyMap.parse (b :: rest) = .ok ⟨rest.toFinset⟩ ∧
      ∀ e, e ∈ rest.toFinset ↔ e ∈ rest := by
  refine ⟨by simp [PropertyMap.parse, h], fun e => List.mem_toFinset⟩

theorem c4_short_form_witness :
    PropertyMap.parse
        (0x0A :: [0x80, 0x81, 0x82, 0x83, 0x88, 0x8A, 0x9D, 0x9E, 0x9F, 0xE0]) =
      .ok ⟨[0x80, 0x81, 0x82, 0x83, 0x88, 0x8A, 0x9D, 0x9E, 0x9F, 0xE0].toFinset⟩ ∧
    ∀ e, e ∈ [0x80, 0x81, 0x82, 0x83, 0x88, 0x8A, 0x9D, 0x9E, 0x9F, 0xE0].toFinset ↔
      e ∈ [0x80, 0x81, 0x82, 0x83, 0x88, 0x8A, 0x9D, 0x9E, 0x9F, 0xE0] :=
  c4_short_form_no_count_check 0x0A _ (by decide)

theorem mem_foldl_range_insert (cond : Nat → Prop) [DecidablePred cond] (v : Nat → Nat) :
    ∀ (n : Nat) (s : Finset Nat) (e : Nat),
      (e ∈ (List.range n).foldl (fun acc j => if cond j then insert (v j) acc else acc) s) ↔
        e ∈ s ∨ ∃ j, j < n ∧ cond j ∧ e = v j := by
  intro n
  induction n with
  | zero => intro s e; simp
  | succ n ih =>
    intro s e
    rw [List.range_succ, List.foldl_append]
    simp only [List.foldl_cons, List.foldl_nil]
    by_cases h : cond n
    · rw [if_pos h, Finset.mem_insert, ih]
      constructor
      · rintro (rfl | hs | ⟨j, hj, hc, he⟩)
        · exact Or.inr ⟨n, by omega, h, rfl⟩
        · exact Or.inl hs
        · exact Or.inr ⟨j, by omega, hc, he⟩
      · rintro (hs | ⟨j, hj, hc, he⟩)
        · exact Or.inr (Or.inl hs)
        · by_cases hjn : j = n
          · subst hjn; exact Or.inl he
          · exact Or.inr (Or.inr ⟨j, by omega, hc, he⟩)
    · rw [if_neg h, ih]
      constructor
      · rintro (hs | ⟨j, hj, hc, he⟩)
        · exact Or.inl hs
        · exact Or.inr ⟨j, by omega, hc, he⟩
      · rintro (hs | ⟨j, hj, hc, he⟩)
        · exact Or.inl hs
        · by_cases hjn : j = n
          · subst hjn; exact absurd hc h
          · exact Or.inr ⟨j, by omega, hc, he⟩

theorem mem_longFormFold (map : List Nat) (e : Nat) :
    e ∈ longFormFold map ↔
      ∃ i, i < 16 ∧ ∃ j, j < 8 ∧ map.getD i 0 &&& (1 <<< j) ≠ 0 ∧ e = i + ((8 + j) <<< 4) := by
  suffices h : ∀ (n : Nat) (s : Finset Nat),
      ((e ∈ (List.range n).foldl
        (fun s i =>
          if map.getD i 0 = 0 then s
          else
            (List.range 8).foldl
              (fun s' j =>
                if map.getD i 0 &&& (1 <<< j) ≠ 0 then insert (i + ((8 + j) <<< 4)) s' else s')
              s)
        s) ↔
        (e ∈ s ∨ ∃ i, i < n ∧ ∃ j, j < 8 ∧ map.getD i 0 &&& (1 <<< j) ≠ 0 ∧
          e = i + ((8 + j) <<< 4))) by
    unfold longFormFold
    rw [h 16 ∅]
    simp
  intro n
  induction n with
  | zero => intro s; simp
  | succ n ih =>
    intro s
    rw [show List.range (n + 1) = List.range n ++ [n] from List.range_succ n,
      List.foldl_append]
    simp only [List.foldl_cons, List.foldl_nil]
    by_cases hz : map.getD n 0 = 0
    · rw [if_pos hz, ih]
      constructor
      · rintro (hs | ⟨i, hi, j, hj, hb, he⟩)
        · exact Or.inl hs
        · exact Or.inr ⟨i, by omega, j, hj, hb, he⟩
      · rintro (hs | ⟨i, hi, j, hj, hb, he⟩)
        · exact Or.inl hs
        · by_cases hin : i = n
          · subst hin; rw [hz] at hb; simp [Nat.zero_and] at hb
          · exact Or.inr ⟨i, by omega, j, hj, hb, he⟩
    · rw [if_neg hz,
        mem_foldl_range_insert (fun j => map.getD n 0 &&& (1 <<< j) ≠ 0)
          (fun j => n + ((8 + j) <<< 4)) 8 _ e, ih]
      constructor
      · rintro ((hs | ⟨i, hi, j, hj, hb, he⟩) | ⟨j, hj, hb, he⟩)
        · exact Or.inl hs
        · exact Or.inr ⟨i, by omega, j, hj, hb, he⟩
        · exact Or.inr ⟨n, by omega, j, hj, hb, he⟩
      · rintro (hs | ⟨i, hi, j, hj, hb, he⟩)
        · exact Or.inl (Or.inl hs)
        · by_cases hin : i = n
          · subst hin; exact Or.inr ⟨j, hj, hb, he⟩
          · exact Or.inl (Or.inr ⟨i, by omega, j, hj, hb, he⟩)

theorem and_shift_ne_iff_testBit (b j : Nat) : (b &&& (1 <<< j) ≠ 0) ↔ b.testBit j := by
  have h2 : 0 < 2 ^ j := Nat.pos_pow_of_pos j (by omega)
  rw [Nat.shiftLeft_eq, one_mul, Nat.and_two_pow]
  cases h : b.testBit j
  · simp [h]
  · simp only [h, Bool.toNat_true, one_mul, ne_eq, iff_true]
    omega

theorem epc_add_eq_lor :
    ∀ i, i < 16 → ∀ j, j < 8 → i + ((8 + j) <<< 4) = ((8 + j) <<< 4) ||| i := by decide

theorem mem_longFormSpec (map : List Nat) (e : Nat) :
    e ∈ longFormSpec map ↔
      ∃ i, i < 16 ∧ ∃ j, j < 8 ∧ (map.getD i 0).testBit j ∧ e = ((8 + j) <<< 4) ||| i := by
  unfold longFormSpec
  simp only [List.mem_toFinset, List.mem_flatMap, List.mem_filterMap, List.mem_range]
  constructor
  · rintro ⟨i, hi, j, hj, hif⟩
    by_cases hb : (map.getD i 0).testBit j
    · rw [if_pos hb] at hif
      exact ⟨i, hi, j, hj, hb, (Option.some_injective _ hif).symm⟩
    · rw [if_neg hb] at hif; cases hif
  · rintro ⟨i, hi, j, hj, hb, he⟩
    exact ⟨i, hi, j, hj, by rw [if_pos hb, he]⟩

theorem longFormFold_eq_spec (map : List Nat) : longFormFold map = longFormSpec map := by
  ext e
  rw [mem_longFormFold, mem_longFormSpec]
  constructor <;> rintro ⟨i, hi, j, hj, hb, he⟩
  · exact ⟨i, hi, j, hj, (and_shift_ne_iff_testBit _ _).mp hb,
      by rw [he, epc_add_eq_lor i hi j hj]⟩
  · exact ⟨i, hi, j, hj, (and_shift_ne_iff_testBit _ _).mpr hb,
      by rw [he, ← epc_add_eq_lor i hi j hj]⟩

/-- C5: the long form (first byte at least 16) requires total length 17;
the bitmap decodes bit `j` of byte `i` to EPC `((8+j) << 4) | i`; the
decoded cardinality must equal the count byte, anything else is a parse
error; and the claim's 17-byte example decodes to its 22-element set. -/
theorem c5_long_form_parse :
    (∀ b rest, 16 ≤ b → (b :: rest).length ≠ 17 →
      PropertyMap.parse (b :: rest) = .error .parseError) ∧
    (∀ b rest, 16 ≤ b → (b :: rest).length = 17 →
      PropertyMap.parse (b :: rest) =
        (if (longFormSpec rest).card = b then .ok ⟨longFormSpec rest⟩
          else .error .parseError) ∧
      (∀ e, e ∈ longFormSpec rest ↔
        ∃ i, i < 16 ∧ ∃ j, j < 8 ∧ (rest.getD i 0).testBit j ∧
          e = ((8 + j) <<< 4) ||| i)) ∧
    PropertyMap.parse pmapLongBytes = .ok ⟨pmapLongEpcs.toFinset⟩ ∧
    pmapLongEpcs.toFinset.card = 22 := by
  refine ⟨?_, ?_, ?_, ?_⟩
  · intro b rest hb hlen
    simp only [PropertyMap.parse]
    rw [if_neg (by omega), if_pos hlen]
  · intro b rest hb hlen
    refine ⟨?_, fun e => mem_longFormSpec rest e⟩
    simp only [PropertyMap.parse]
    rw [if_neg (by omega), if_neg (by omega), longFormFold_eq_spec]
    by_cases hc : (longFormSpec rest).card = b
    · rw [if_neg (by omega), if_pos hc]
    · rw [if_pos (by omega), if_neg hc]
  · have hsub : pmapLongEpcs.toFinset ⊆ longFormFold (pmapLongBytes.drop 1) := by decide
    have hcard : (longFormFold (pmapLongBytes.drop 1)).card = 22 := by decide
    have hc2 : pmapLongEpcs.toFinset.card = 22 := by decide
    have heq : longFormFold (pmapLongBytes.drop 1) = pmapLongEpcs.toFinset :=
      (Finset.eq_of_subset_of_card_le hsub (by omega)).symm
    show PropertyMap.parse pmapLongBytes = .ok ⟨pmapLongEpcs.toFinset⟩
    rw [show pmapLongBytes = 0x16 :: pmapLongBytes.drop 1 from rfl]
    simp only [PropertyMap.parse]
    rw [if_neg (by decide), if_neg (by decide), if_neg (by rw [hcard]; decide), heq]
  · decide

theorem c5_long_form_parse_witness :
    PropertyMap.parse [16] = .error .parseError :=
  c5_long_form_parse.1 16 [] (by decide) (by decide)

/-! ## The EVER line (claim C3) -/

theorem splitOn_ne_nil (p : Char → Bool) (l : Str) : splitOn p l ≠ [] := by
  induction l with
  | nil => simp [splitOn]
  | cons c cs ih =>
    by_cases h : p c
    · simp [splitOn, h]
    · simp only [splitOn]
      rw [if_neg (by simp [h])]
      cases hsp : splitOn p cs with
      | nil => exact absurd hsp ih
      | cons t ts => simp

theorem headI_splitOn (p : Char → Bool) (l : Str) :
    (splitOn p l).headI = l.takeWhile (fun c => !p c) := by
  induction l with
  | nil => rfl
  | cons c cs ih =>
    by_cases h : p c
    · simp [splitOn, h, List.takeWhile_cons]
    · obtain ⟨t, ts, ht⟩ := List.exists_cons_of_ne_nil (splitOn_ne_nil p cs)
      have htt : t = cs.takeWhile (fun c => !p c) := by rw [← ih, ht]; rfl
      simp only [splitOn]
      rw [if_neg (by simp [h]), ht]
      simp [List.takeWhile_cons, h, htt]

theorem tokenize_ne_nil (data : Str) : tokenize data ≠ [] := by
  unfold tokenize
  simp [splitOn_ne_nil]

theorem stripPre_self_append : ∀ p l : Str, stripPre p (p ++ l) = some l := by
  intro p
  induction p with
  | nil => intro l; rfl
  | cons c cs ih => intro l; simp [stripPre, ih]

theorem trim_ever (s : Str) :
    trim (everSpaceTok ++ s) = ['E', 'V', 'E', 'R'] ∨
      ∃ r, trim (everSpaceTok ++ s) = 'E' :: 'V' :: 'E' :: 'R' :: ' ' :: r := by
  unfold trim rtrim
  rw [List.reverse_append,
    show everSpaceTok.reverse = [' ', 'R', 'E', 'V', 'E'] from rfl,
    List.dropWhile_append]
  by_cases hd : (s.reverse.dropWhile isWs).isEmpty
  · rw [if_pos hd]
    exact Or.inl rfl
  · rw [if_neg hd]
    refine Or.inr ⟨(s.reverse.dropWhile isWs).reverse, ?_⟩
    rw [List.reverse_append,
      show ([' ', 'R', 'E', 'V', 'E'] : Str).reverse = ['E', 'V', 'E', 'R', ' '] from rfl,
      show (['E', 'V', 'E', 'R', ' '] : Str) ++ (s.reverse.dropWhile isWs).reverse =
        'E' :: 'V' :: 'E' :: 'R' :: ' ' :: (s.reverse.dropWhile isWs).reverse from rfl]
    unfold ltrim
    rw [List.dropWhile_cons, if_neg (by decide)]

theorem firstTok_ever (s : Str) :
    (tokenize (everSpaceTok ++ s)).getD 0 [] = ['E', 'V', 'E', 'R'] := by
  unfold tokenize
  obtain ⟨x, xs, hx⟩ :=
    List.exists_cons_of_ne_nil (splitOn_ne_nil (fun c => c = ' ' || c = '\n')
      (trim (everSpaceTok ++ s)))
  have hhead : x = (trim (everSpaceTok ++ s)).takeWhile (fun c => !(c = ' ' || c = '\n')) := by
    rw [← headI_splitOn (fun c => c = ' ' || c = '\n') (trim (everSpaceTok ++ s)), hx]
    rfl
  rw [hx]
  simp only [List.map_cons, List.getD_cons_zero]
  rcases trim_ever s with h | ⟨r, h⟩
  · rw [hhead, h]
    rfl
  · rw [hhead, h]
    rfl

/-- C3: a single line `EVER <s>` fed to the (spec-modelled, see
`WiSunEvent.parseV`) parser with no pending block classifies as
`Ok(Event(Version(s)))`, for every suffix and every IPv6 parser. -/
theorem c3_ever_version_event (ipv6 : Str → Option Ipv6) (s : Str) :
    addLineV ipv6 none (everSpaceTok ++ s) =
      some (.ok (.event (.version s)), none) := by
  have hev : WiSunEvent.parseV ipv6 (everSpaceTok ++ s) = some (.ok (.version s)) := by
    simp only [WiSunEvent.parseV]
    rw [if_neg (by simp [everSpaceTok]),
      if_neg (by have h := List.length_pos.mpr (tokenize_ne_nil (everSpaceTok ++ s)); omega),
      firstTok_ever s, if_neg (by decide), if_neg (by decide), if_neg (by decide),
      stripPre_self_append everSpaceTok s]
  have hparse : SerialMessage.parseV ipv6 (everSpaceTok ++ s) =
      some (.ok (.event (.version s))) := by
    unfold SerialMessage.parseV
    rw [if_neg (by simp [everSpaceTok, okTok]),
      show stripPre failSpaceTok (everSpaceTok ++ s) = none from rfl, hev]
  unfold addLineV
  rw [if_neg (by simp [everSpaceTok])]
  simp [hparse]

/-! ## wait_fn and the client (claims C6, C7, C8, C9) -/

/-- C6: evaluated at the failing input.  `get_message` surfaces a
non-timeout I/O read error to `wait_fn`, but `wait_fn`'s `IoError` arm
only handles the `TimedOut` kind and falls through to sleep-and-retry for
every other kind, so the error never reaches `wait_fn`'s caller: here the
swallowed error is followed by an `OK` line, and `wait_fn` happily returns
`OK`. -/
theorem c6_nontimeout_io_error_swallowed :
    getMessage [ReadOutcome.ioOther] = (.errIoOther, []) ∧
      waitFn isOkMsg errWhenFail [] [ReadOutcome.ioOther, ReadOutcome.msg .ok] =
        (.found .ok, [], []) :=
  ⟨rfl, rfl⟩

theorem searchOnBuffer_some (pred : SerialMessage → Bool) :
    ∀ (buf : List SerialMessage) (m : SerialMessage) (buf' : List SerialMessage),
      searchOnBuffer pred buf = some (m, buf') →
      ∃ pre post, buf = pre ++ m :: post ∧ (∀ x ∈ pre, pred x = false) ∧ pred m = true ∧
        buf' = pre ++ post := by
  intro buf
  induction buf with
  | nil => intro m buf' h; simp [searchOnBuffer] at h
  | cons a rest ih =>
    intro m buf' h
    unfold searchOnBuffer at h
    by_cases hp : pred a
    · rw [if_pos hp] at h
      injection h with h2
      obtain ⟨rfl, rfl⟩ := Prod.mk.inj h2
      exact ⟨[], rest, rfl, by simp, hp, rfl⟩
    · rw [if_neg hp] at h
      cases hs : searchOnBuffer pred rest with
      | none => rw [hs] at h; simp at h
      | some pr =>
        obtain ⟨x, b⟩ := pr
        rw [hs] at h
        simp only [Option.map_some'] at h
        injection h with h2
        obtain ⟨rfl, rfl⟩ := Prod.mk.inj h2
        obtain ⟨pre, post, hb, hpre, hm, hb'⟩ := ih x b hs
        refine ⟨a :: pre, post, by rw [hb]; rfl, ?_, hm, by rw [hb']; rfl⟩
        intro y hy
        rcases List.mem_cons.mp hy with rfl | hy2
        · exact Bool.eq_false_iff.mpr hp
        · exact hpre y hy2

theorem searchOnBuffer_none (pred : SerialMessage → Bool) :
    ∀ buf : List SerialMessage, searchOnBuffer pred buf = none →
      ∀ x ∈ buf, pred x = false := by
  intro buf
  induction buf with
  | nil => intro _ x hx; cases hx
  | cons a rest ih =>
    intro h x hx
    unfold searchOnBuffer at h
    by_cases hp : pred a
    · rw [if_pos hp] at h; cases h
    · rw [if_neg hp] at h
      rcases List.mem_cons.mp hx with rfl | hx2
      · exact Bool.eq_false_iff.mpr hp
      · exact ih (Option.map_eq_none'.mp h) x hx2

theorem waitLoop_found (pred : SerialMessage → Bool) (errIf : SerialMessage → Option Str) :
    ∀ (stream : List ReadOutcome) (buf : List SerialMessage) (m : SerialMessage)
      (buf' : List SerialMessage) (stream' : List ReadOutcome),
      waitLoop pred errIf stream buf = (.found m, buf', stream') →
      pred m = true ∧ ∃ ms, buf' = buf ++ ms ∧ ∀ x ∈ ms, pred x = false ∧ errIf x = none := by
  intro stream
  induction stream with
  | nil => intro buf m buf' s' h; simp [waitLoop] at h
  | cons o rest ih =>
    intro buf m buf' s' h
    cases o with
    | msg m0 =>
      simp only [waitLoop] at h
      by_cases hp : pred m0
      · rw [if_pos hp] at h
        injection h with ha hb
        injection ha with ha
        injection hb with hb1 hb2
        subst ha; subst hb1
        exact ⟨hp, [], by simp, by simp⟩
      · rw [if_neg hp] at h
        cases he : errIf m0 with
        | some e => rw [he] at h; simp at h
        | none =>
          rw [he] at h
          obtain ⟨hm, ms, hb, hmsp⟩ := ih (buf ++ [m0]) m buf' s' h
          refine ⟨hm, m0 :: ms, by rw [hb]; simp, ?_⟩
          intro x hx
          rcases List.mem_cons.mp hx with rfl | hx2
          · exact ⟨Bool.eq_false_iff.mpr hp, he⟩
          · exact hmsp x hx2
    | emptyLine => exact ih buf m buf' s' h
    | parseSkip => exact ih buf m buf' s' h
    | ioTimeout => exact ih buf m buf' s' h
    | ioOther => exact ih buf m buf' s' h
    | serialOther => exact ih buf m buf' s' h

/-- C8: whenever `wait_fn` returns a message, the message satisfies the
predicate, and either it was the earliest (FIFO-first) buffered match — the
buffer loses exactly that entry and nothing is read — or no buffered
message matched and the returned message is the first freshly read match:
every fresh message before it failed both `pred` and `err_if` and stays
appended to the buffer in arrival order. -/
theorem c8_wait_fn_fifo (pred : SerialMessage → Bool) (errIf : SerialMessage → Option Str)
    (buf : List SerialMessage) (stream : List ReadOutcome) (m : SerialMessage)
    (buf' : List SerialMessage) (stream' : List ReadOutcome)
    (h : waitFn pred errIf buf stream = (.found m, buf', stream')) :
    pred m = true ∧
      ((∃ pre post, buf = pre ++ m :: post ∧ (∀ x ∈ pre, pred x = false) ∧
        buf' = pre ++ post ∧ stream' = stream) ∨
       ((∀ x ∈ buf, pred x = false) ∧
        ∃ ms, buf' = buf ++ ms ∧ ∀ x ∈ ms, pred x = false ∧ errIf x = none)) := by
  unfold waitFn at h
  cases hs : searchOnBuffer pred buf with
  | some pr =>
    obtain ⟨x, b⟩ := pr
    rw [hs] at h
    injection h with ha hb
    injection ha with ha
    injection hb with hb1 hb2
    subst ha; subst hb1; subst hb2
    obtain ⟨pre, post, h1, h2, h3, h4⟩ := searchOnBuffer_some pred buf x b hs
    exact ⟨h3, Or.inl ⟨pre, post, h1, h2, h4, rfl⟩⟩
  | none =>
    rw [hs] at h
    obtain ⟨hm, ms, hb, hmsp⟩ := waitLoop_found pred errIf stream buf m buf' stream' h
    exact ⟨hm, Or.inr ⟨searchOnBuffer_none pred buf hs, ms, hb, hmsp⟩⟩

theorem c8_wait_fn_fifo_witness :
    isOkMsg SerialMessage.ok = true ∧
      ((∃ pre post, ([] : List SerialMessage) = pre ++ SerialMessage.ok :: post ∧
        (∀ x ∈ pre, isOkMsg x = false) ∧ [ev22Msg] = pre ++ post ∧
        ([] : List ReadOutcome) = [ReadOutcome.msg ev22Msg, ReadOutcome.msg .ok]) ∨
       ((∀ x ∈ ([] : List SerialMessage), isOkMsg x = false) ∧
        ∃ ms, [ev22Msg] = [] ++ ms ∧ ∀ x ∈ ms, isOkMsg x = false ∧ errWhenFail x = none)) :=
  c8_wait_fn_fifo isOkMsg errWhenFail [] [ReadOutcome.msg ev22Msg, ReadOutcome.msg .ok]
    .ok [ev22Msg] [] (by decide)

theorem scanGo_sent_take (durations : List Nat) :
    ∀ (buf : List SerialMessage) (stream : List ReadOutcome),
      ∃ k, k ≤ durations.length ∧
        (scanGo durations buf stream).2.2.2 = durations.take k ∧
        ((scanGo durations buf stream).1 = .scanError → k = durations.length) := by
  induction durations with
  | nil => intro buf stream; exact ⟨0, by simp, by simp [scanGo], fun _ => rfl⟩
  | cons d ds ih =>
    intro buf stream
    unfold scanGo
    split
    · -- OK wait succeeded: wait for FinishedActiveScan
      rename_i m1 buf1 s1 hw1
      split
      · -- scan-finished wait succeeded: search the buffer
        rename_i m2 buf2 s2 hw2
        split
        · exact ⟨1, by simp, rfl, by simp⟩
        · rename_i msg0 buf3 hnofc heqsb
          obtain ⟨k, hk, hsent, herr⟩ := ih buf3 s2
          rcases hrec : scanGo ds buf3 s2 with ⟨r, b, s, sent⟩
          rw [hrec] at hsent herr
          refine ⟨k + 1, by simp; omega, ?_, ?_⟩
          · simpa using hsent
          · intro hsc
            simp only at hsc herr
            simp [herr hsc]
        · rename_i heqsb
          obtain ⟨k, hk, hsent, herr⟩ := ih buf2 s2
          rcases hrec : scanGo ds buf2 s2 with ⟨r, b, s, sent⟩
          rw [hrec] at hsent herr
          refine ⟨k + 1, by simp; omega, ?_, ?_⟩
          · simpa using hsent
          · intro hsc
            simp only at hsc herr
            simp [herr hsc]
      · exact ⟨1, by simp, rfl, by simp⟩
      · exact ⟨1, by simp, rfl, by simp⟩
    · exact ⟨1, by simp, rfl, by simp⟩
    · exact ⟨1, by simp, rfl, by simp⟩

/-- C9: `scan` sends the durations 4, 5, 6, 7, 8, 9 in increasing order —
the sent list is always a prefix of that sequence, and a `ScanError`
result means all six were sent and exhausted; the concrete out-of-order
run (the `EPANDESC` block read before `EVENT 22` while waiting on the
scan-finished event) yields the PanDesc in one duration; and six empty
durations yield `ScanError`. -/
theorem c9_scan_behaviour :
    (∀ (buf : List SerialMessage) (stream : List ReadOutcome),
      ∃ k, k ≤ 6 ∧ (scan buf stream).2.2.2 = [4, 5, 6, 7, 8, 9].take k ∧
        ((scan buf stream).1 = .scanError → k = 6)) ∧
    scan [] outOfOrderStream = (.ok panBodyEx, [], [], [4]) ∧
    scan [] exhaustScanStream = (.scanError, [], [], [4, 5, 6, 7, 8, 9]) := by
  refine ⟨?_, by decide, by decide⟩
  intro buf stream
  simpa [scan] using scanGo_sent_take [4, 5, 6, 7, 8, 9] buf stream

theorem c9_scan_behaviour_witness :
    scan [] outOfOrderStream = (.ok panBodyEx, [], [], [4]) :=
  c9_scan_behaviour.2.1

/-- C7: with no stored property map, `get_properties` (and through it both
public reads) fails the gate check before any UDP payload is handed to
`send_udp` — the sent list stays empty — while the single-`0x9F`
(GetPropertyMap) request passes the gate despite the missing map. -/
theorem c7_property_map_gate {P : Type} (c : PropCodec P) (le : Bool) (tid : Nat)
    (props : List P) (st : ClientState) (stream : List ReadOutcome)
    (hpm : st.property_map = none) (hne : props.map c.toU8 ≠ [0x9F]) :
    getProperties c le tid props st stream = (.error .commandError, st, stream, []) ∧
    getPowerConsumption le tid st stream = (.error .commandError, st, stream, []) ∧
    getCumulativeElectricEnergy le tid st stream = (.error .commandError, st, stream, []) ∧
    checkPropertyExists [0x9F] st.property_map = .ok () := by
  have hchk : ∀ ps : List Nat, ps ≠ [0x9F] →
      checkPropertyExists ps none = .error .commandError := by
    intro ps hps
    have hcond : ¬(ps.length = 1 ∧ ps.getD 0 0 = 0x9F) := by
      rintro ⟨h1, h2⟩
      obtain ⟨a, rfl⟩ := List.length_eq_one.mp h1
      exact hps (by simpa using h2)
    unfold checkPropertyExists
    rw [if_neg hcond]
  refine ⟨?_, ?_, ?_, by rw [hpm]; decide⟩
  · have h1 := hchk (props.map c.toU8) hne
    unfold getProperties
    rw [hpm, h1]
  · have h1 := hchk ([EchonetSmartMeterProperty.instantaneousElectricPower].map smCodec.toU8)
      (by decide)
    unfold getPowerConsumption getProperties
    rw [hpm, h1]
  · have h1 := hchk
      ([EchonetSmartMeterProperty.normalDirectionCumulativeElectricEnergy,
        EchonetSmartMeterProperty.unitForCumulativeElectricEnergy,
        EchonetSmartMeterProperty.coefficient].map smCodec.toU8) (by decide)
    unfold getCumulativeElectricEnergy getProperties
    rw [hpm, h1]

theorem c7_property_map_gate_witness :
    getProperties smCodec true 0 [EchonetSmartMeterProperty.instantaneousElectricPower]
        pmNoneState [] = (.error .commandError, pmNoneState, [], []) ∧
    getPowerConsumption true 0 pmNoneState [] = (.error .commandError, pmNoneState, [], []) ∧
    getCumulativeElectricEnergy true 0 pmNoneState [] =
      (.error .commandError, pmNoneState, [], []) ∧
    checkPropertyExists [0x9F] pmNoneState.property_map = .ok () :=
  c7_property_map_gate smCodec true 0 _ pmNoneState [] rfl (by decide)

/-! ## Totality of line classification (claim C10) -/

/-- C10 counterexample: `parse_event` indexes `parts[2]` unconditionally,
so the line `EVENT 21` (two tokens, valid hex event number) panics instead
of returning a `ParseResult`, both at `WiSunEvent::parse` and through
`add_line`. -/
theorem c10_event_short_line_panics :
    WiSunEvent.parse noIpv6 eventShortLine = none ∧
      addLine noIpv6 none eventShortLine = none :=
  ⟨rfl, rfl⟩

/-- C10 (amended): classification is total — a `ParseResult` comes back —
for every line except those whose first token is `EVENT` and which have
either a single token, or exactly two tokens with the second parsing as a
hex `u8`; exactly there `parse_event`'s unchecked `parts[1]`/`parts[2]`
indexing panics. -/
theorem c10_parse_total_except_short_event (ipv6 : Str → Option Ipv6) (data : Str) :
    WiSunEvent.parse ipv6 data = none ↔
      (data.length ≠ 0 ∧ (tokenize data).getD 0 [] = eventTok ∧
        ((tokenize data).length = 1 ∨
          ((tokenize data).length = 2 ∧ hexU8 ((tokenize data).getD 1 []) ≠ none))) := by
  by_cases h0 : data.length = 0
  · simp [WiSunEvent.parse, h0]
  · rcases hts : tokenize data with _ | ⟨t, rest⟩
    · exact absurd hts (tokenize_ne_nil data)
    · have hpar : WiSunEvent.parse ipv6 data =
          (if (t :: rest).length < 1 then some (.err data)
           else if (t :: rest).getD 0 [] = eventTok then
             WiSunEvent.parseEvent ipv6 data (t :: rest)
           else if (t :: rest).getD 0 [] = erxudpTok then
             some (WiSunEvent.parseRxUdp ipv6 data (t :: rest))
           else if (t :: rest).getD 0 [] = epandescTok then
             some (WiSunEvent.parsePanDesc data)
           else some (.err data)) := by
        unfold WiSunEvent.parse
        rw [if_neg h0, hts]
      rw [hpar]
      rw [if_neg (by simp)]
      simp only [List.getD_cons_zero, List.length_cons]
      by_cases h1 : t = eventTok
      · rw [if_pos h1]
        cases rest with
        | nil => simp [WiSunEvent.parseEvent, h0, h1]
        | cons r1 rest2 =>
          cases rest2 with
          | nil =>
            cases hx : hexU8 r1 with
            | none => simp [WiSunEvent.parseEvent, h0, h1, hx]
            | some n => simp [WiSunEvent.parseEvent, h0, h1, hx]
          | cons r2 rest3 =>
            cases hx : hexU8 r1 with
            | none => simp [WiSunEvent.parseEvent, h0, h1, hx]
            | some n =>
              cases hk : EventKind.fromU8 n <;> cases hi : ipv6 r2 <;>
                simp [WiSunEvent.parseEvent, h0, h1, hx, hk, hi]
      · rw [if_neg h1]
        by_cases h2 : t = erxudpTok
        · rw [if_pos h2]; simp [h1]
        · rw [if_neg h2]
          by_cases h3 : t = epandescTok
          · rw [if_pos h3]; simp [h1]
          · rw [if_neg h3]; simp [h1]

theorem c3_ever_version_event_witness :
    addLineV noIpv6 none (everSpaceTok ++ ['1', '.', '2', '.', '3']) =
      some (.ok (.event (.version ['1', '.', '2', '.', '3'])), none) :=
  c3_ever_version_event noIpv6 ['1', '.', '2', '.', '3']

theorem c10_parse_total_except_short_event_witness :
    WiSunEvent.parse noIpv6 eventShortLine = none ↔
      (eventShortLine.length ≠ 0 ∧ (tokenize eventShortLine).getD 0 [] = eventTok ∧
        ((tokenize eventShortLine).length = 1 ∨
          ((tokenize eventShortLine).length = 2 ∧
            hexU8 ((tokenize eventShortLine).getD 1 []) ≠ none))) :=
  c10_parse_total_except_short_event noIpv6 eventShortLine

end SmartMeterReceiver
